import Mathlib

/-!
Verification of the provider-abstraction and response-normalization layer of
FitTrackClient (`src/services/apiService.ts`).

The TypeScript code is shallowly embedded: JavaScript runtime values that flow
through `JSON.parse` and property accesses are modelled by the inductive type
`Json`, `undefined` is modelled by `Option.none`, the nullish-coalescing
operator `??` by `jsNullish`, the logical-or defaulting idiom `||` by
`truthyValue`/`jsOrDefault`, and the `JSON.parse` builtin by the fuelled
recursive-descent function `jsonParse` (restricted to integer numerics and to
string escapes whose code points are Unicode scalar values; every input used
in a concrete theorem below lies inside this fragment, where the model agrees
with the JavaScript builtin).
-/

/-- JavaScript values produced by `JSON.parse`: null, booleans, (integer)
numbers, strings, arrays and objects.  Object member lists keep source order;
duplicate keys are resolved at property-access time, last binding winning,
as in JavaScript. -/
inductive Json where
  | null : Json
  | bool : Bool → Json
  | num : Int → Json
  | str : String → Json
  | arr : List Json → Json
  | obj : List (String × Json) → Json

/-- JSON whitespace (space, tab, line feed, carriage return). -/
def isJsonWs (c : Char) : Bool :=
  c = ' ' || c = '\t' || c = '\n' || c = '\r'

/-- Drop leading JSON whitespace. -/
def skipWs : List Char → List Char
  | [] => []
  | c :: cs => if isJsonWs c then skipWs cs else c :: cs

/-- Value of a hexadecimal digit. -/
def hexVal (c : Char) : Option Nat :=
  if '0' ≤ c ∧ c ≤ '9' then some (c.toNat - 48)
  else if 'a' ≤ c ∧ c ≤ 'f' then some (c.toNat - 87)
  else if 'A' ≤ c ∧ c ≤ 'F' then some (c.toNat - 55)
  else none

/-- Four hex digits of a `\uXXXX` escape. -/
def parseHex4 : List Char → Option (Nat × List Char)
  | c1 :: c2 :: c3 :: c4 :: rest =>
    match hexVal c1, hexVal c2, hexVal c3, hexVal c4 with
    | some a, some b, some c, some d => some (a * 4096 + b * 256 + c * 16 + d, rest)
    | _, _, _, _ => none
  | _ => none

/-- Body of a JSON string literal, after the opening quote.  Control
characters are rejected, the standard escapes are decoded; `\uXXXX` is decoded
when the code point is a Unicode scalar value (surrogate halves are outside
the model). -/
def parseStringBody (fuel : Nat) (acc : List Char) (cs : List Char) : Option (String × List Char) :=
  match fuel, cs with
  | 0, _ => none
  | _, [] => none
  | fuelp + 1, c :: rest =>
    if c = '"' then some (String.mk acc.reverse, rest)
    else if c = '\\' then
      match rest with
      | [] => none
      | e :: rest2 =>
        if e = '"' then parseStringBody fuelp ('"' :: acc) rest2
        else if e = '\\' then parseStringBody fuelp ('\\' :: acc) rest2
        else if e = '/' then parseStringBody fuelp ('/' :: acc) rest2
        else if e = 'b' then parseStringBody fuelp ('\x08' :: acc) rest2
        else if e = 'f' then parseStringBody fuelp ('\x0c' :: acc) rest2
        else if e = 'n' then parseStringBody fuelp ('\n' :: acc) rest2
        else if e = 'r' then parseStringBody fuelp ('\r' :: acc) rest2
        else if e = 't' then parseStringBody fuelp ('\t' :: acc) rest2
        else if e = 'u' then
          match parseHex4 rest2 with
          | some (n, rest3) =>
            if n < 0xd800 ∨ (0xe000 ≤ n ∧ n < 0x110000) then
              parseStringBody fuelp (Char.ofNat n :: acc) rest3
            else none
          | none => none
        else none
    else if c.toNat < 32 then none
    else parseStringBody fuelp (c :: acc) rest

/-- Longest leading run of decimal digits. -/
def takeDigits : List Char → List Char × List Char
  | [] => ([], [])
  | c :: cs =>
    if c.isDigit then
      let p := takeDigits cs
      (c :: p.1, p.2)
    else ([], c :: cs)

/-- Numeric value of a digit string. -/
def digitsToNat (ds : List Char) : Nat :=
  ds.foldl (fun a c => a * 10 + (c.toNat - 48)) 0

/-- A JSON number.  The model covers the integer fragment: an optional minus
sign and digits without a redundant leading zero; a following fraction or
exponent makes the whole parse fail rather than return a wrong value. -/
def parseNumber (cs : List Char) : Option (Int × List Char) :=
  let p : Bool × List Char := match cs with
    | '-' :: r => (true, r)
    | _ => (false, cs)
  let q := takeDigits p.2
  match q.1 with
  | [] => none
  | d :: ds =>
    if d = '0' ∧ ds ≠ [] then none
    else
      match q.2 with
      | '.' :: _ => none
      | 'e' :: _ => none
      | 'E' :: _ => none
      | _ =>
        let n : Int := Int.ofNat (digitsToNat q.1)
        some (if p.1 then -n else n, q.2)

mutual

/-- One JSON value, by recursive descent with explicit fuel. -/
def parseValue : Nat → List Char → Option (Json × List Char)
  | 0, _ => none
  | fuelp + 1, cs =>
    match skipWs cs with
    | '"' :: rest =>
      match parseStringBody (fuelp + 1) [] rest with
      | some (s, r) => some (Json.str s, r)
      | none => none
    | '\x7b' :: rest =>
      match skipWs rest with
      | '\x7d' :: r => some (Json.obj [], r)
      | _ => parseMembers fuelp rest []
    | '[' :: rest =>
      match skipWs rest with
      | ']' :: r => some (Json.arr [], r)
      | _ => parseElems fuelp rest []
    | 't' :: 'r' :: 'u' :: 'e' :: rest => some (Json.bool true, rest)
    | 'f' :: 'a' :: 'l' :: 's' :: 'e' :: rest => some (Json.bool false, rest)
    | 'n' :: 'u' :: 'l' :: 'l' :: rest => some (Json.null, rest)
    | other =>
      match parseNumber other with
      | some (n, r) => some (Json.num n, r)
      | none => none

/-- Members of a JSON object, after the opening brace (non-empty case). -/
def parseMembers : Nat → List Char → List (String × Json) → Option (Json × List Char)
  | 0, _, _ => none
  | fuelp + 1, cs, acc =>
    match skipWs cs with
    | '"' :: rest =>
      match parseStringBody (fuelp + 1) [] rest with
      | some (key, r1) =>
        match skipWs r1 with
        | ':' :: r2 =>
          match parseValue fuelp r2 with
          | some (v, r3) =>
            match skipWs r3 with
            | ',' :: r4 => parseMembers fuelp r4 (acc ++ [(key, v)])
            | '\x7d' :: r4 => some (Json.obj (acc ++ [(key, v)]), r4)
            | _ => none
          | none => none
        | _ => none
      | none => none
    | _ => none

/-- Elements of a JSON array, after the opening bracket (non-empty case). -/
def parseElems : Nat → List Char → List Json → Option (Json × List Char)
  | 0, _, _ => none
  | fuelp + 1, cs, acc =>
    match parseValue fuelp cs with
    | some (v, r1) =>
      match skipWs r1 with
      | ',' :: r2 => parseElems fuelp r2 (acc ++ [v])
      | ']' :: r2 => some (Json.arr (acc ++ [v]), r2)
      | _ => none
    | none => none

end

/-- Model of the JavaScript `JSON.parse` builtin on the fragment described
above: one value, surrounded by nothing but whitespace. -/
def jsonParse (s : String) : Option Json :=
  match parseValue (s.length + 1) s.data with
  | some (j, rest) => if skipWs rest = [] then some j else none
  | none => none

/-- Index of the first opening brace of a character list. -/
def firstBrace : List Char → Option Nat
  | [] => none
  | c :: cs =>
    if c = '\x7b' then some 0
    else (firstBrace cs).map (· + 1)

/-- Index of the last closing brace of a character list. -/
def lastClose : List Char → Option Nat
  | [] => none
  | c :: cs =>
    match lastClose cs with
    | some k => some (k + 1)
    | none => if c = '\x7d' then some 0 else none

/-- Model of `response.match(/\x7b[\s\S]*\x7d/)` as used by both parse
methods: the (greedy, leftmost) match runs from the first opening brace to the
last closing brace and exists exactly when some opening brace is followed by a
closing brace. -/
def extractJsonCandidate (s : String) : Option String :=
  match firstBrace s.data, lastClose s.data with
  | some i, some j =>
    if i < j then some (String.mk ((s.data.drop i).take (j + 1 - i))) else none
  | _, _ => none

/-- JavaScript property access `v[key]` on a decoded JSON value: a lookup in
an object (last binding wins), `undefined` (= `none`) otherwise. -/
def jsGet (v : Json) (key : String) : Option Json :=
  match v with
  | Json.obj kvs =>
    match kvs.reverse.find? (fun kv => kv.1 == key) with
    | some kv => some kv.2
    | none => none
  | _ => none

/-- JavaScript truthiness of a JSON value: `null`, `false`, `0` and `""` are
falsy; every other value (including empty arrays and objects) is truthy. -/
def jsTruthy : Json → Bool
  | Json.null => false
  | Json.bool b => b
  | Json.num n => n != 0
  | Json.str s => s != ""
  | Json.arr _ => true
  | Json.obj _ => true

/-- The nullish-coalescing operator `x ?? d` applied to a possibly-undefined
value: `d` when `x` is `undefined` or `null`, `x` itself otherwise. -/
def jsNullish (v : Option Json) (dflt : Json) : Json :=
  match v with
  | none => dflt
  | some Json.null => dflt
  | some w => w

/-- The truthy value of `x`, if any: `x || y` evaluates to `y` exactly when
this is `none`. -/
def truthyValue (v : Option Json) : Option Json :=
  match v with
  | some w => if jsTruthy w then some w else none
  | none => none

/-- The logical-or defaulting idiom `x || d`. -/
def jsOrDefault (v : Option Json) (dflt : Json) : Json :=
  match truthyValue v with
  | some w => w
  | none => dflt

/-- The `ATSFormatCheck` record.  The TypeScript field types are not enforced
at runtime, so each field holds whatever JavaScript value the normalizer put
there. -/
structure ATSFormatCheck where
  isATSFormat : Json
  score : Json
  issues : Json
  suggestions : Json

/-- The fixed record `parseATSResponse` returns when parsing fails. -/
def atsParseFallback : ATSFormatCheck :=
  { isATSFormat := Json.bool false
    score := Json.num 0
    issues := Json.arr [Json.str ("Failed to parse API response")]
    suggestions := Json.arr [Json.str ("Please check the API response format")] }

/-- `APIService.parseATSResponse`: extract the brace-delimited candidate,
`JSON.parse` it, default each field with `??`, and fall back to the fixed
record when either step fails (the `try`/`catch` of the source). -/
def parseATSResponse (response : String) : ATSFormatCheck :=
  match extractJsonCandidate response with
  | some candidate =>
    match jsonParse candidate with
    | some parsed =>
      { isATSFormat := jsNullish (jsGet parsed ("isATSFormat")) (Json.bool false)
        score := jsNullish (jsGet parsed ("score")) (Json.num 0)
        issues := jsNullish (jsGet parsed ("issues")) (Json.arr [])
        suggestions := jsNullish (jsGet parsed ("suggestions")) (Json.arr []) }
    | none => atsParseFallback
  | none => atsParseFallback

/-- The global single-character replacement `text.replace(/c/g, t)`:
each occurrence of `c` becomes the literal text `t`. -/
def replaceChar (c : Char) (t : List Char) (s : List Char) : List Char :=
  s.flatMap (fun ch => if ch = c then t else [ch])

/-- The escaping chain of `generateDefaultLaTeX`: ten global replacements run
one after another, each over the full output of the previous one, backslash
first. -/
def escapeChain (s0 : List Char) : List Char :=
  let s1 := replaceChar '\\' ("\\textbackslash\x7b\x7d".data) s0
  let s2 := replaceChar '\x7b' ("\\\x7b".data) s1
  let s3 := replaceChar '\x7d' ("\\\x7d".data) s2
  let s4 := replaceChar '#' ("\\#".data) s3
  let s5 := replaceChar '$' ("\\$".data) s4
  let s6 := replaceChar '%' ("\\%".data) s5
  let s7 := replaceChar '&' ("\\&".data) s6
  let s8 := replaceChar '^' ("\\textasciicircum\x7b\x7d".data) s7
  let s9 := replaceChar '_' ("\\_".data) s8
  let s10 := replaceChar '~' ("\\textasciitilde\x7b\x7d".data) s9
  s10

/-- The escaping step as a whole, on strings. -/
def escapeLatex (cvText : String) : String :=
  String.mk (escapeChain cvText.data)

/-- The JavaScript split `escapedText.split('\\n')` from the template literal
of `generateDefaultLaTeX`.  Inside the template the string literal denotes the
two-character sequence backslash-`n`, so the split separator is that literal
sequence, not the newline character. -/
def splitOnBackslashN : List Char → List (List Char)
  | [] => [[]]
  | [c] => [[c]]
  | a :: b :: rest =>
    if a = '\\' ∧ b = 'n' then [] :: splitOnBackslashN rest
    else
      match splitOnBackslashN (b :: rest) with
      | [] => [[a]]
      | h :: t => (a :: h) :: t

/-- The interpolation `escapedText.split('\\n').slice(0, 3).join('\\n\\par')`
filling the Professional Summary section. -/
def latexSummary (escapedText : String) : String :=
  String.mk (List.intercalate ("\\n\\par".data) ((splitOnBackslashN escapedText.data).take 3))

/-- The document skeleton before the summary interpolation. -/
def latexHead : String :=
  "\\documentclass[11pt,a4paper,sans]\x7bmoderncv\x7d\n\\moderncvstyle\x7bclassic\x7d\n\\moderncvcolor\x7bblue\x7d\n\n\\usepackage[utf8]\x7binputenc\x7d\n\\usepackage[scale=0.75]\x7bgeometry\x7d\n\\usepackage[T1]\x7bfontenc\x7d\n\n% Personal Data\n\\name\x7bYour\x7d\x7bName\x7d\n\\address\x7bYour Address\x7d\n\\phone[mobile]\x7b+1~(234)~567~890\x7d\n\\email\x7byour.email@example.com\x7d\n\n\\begin\x7bdocument\x7d\n\\makecvtitle\n\n\\section\x7bProfessional Summary\x7d\n"

/-- The document skeleton between the summary and the full text. -/
def latexMid : String :=
  "\n\n\\section\x7bExperience\x7d\n"

/-- The document skeleton after the full text. -/
def latexTail : String :=
  "\n\n\\section\x7bEducation\x7d\n% Add your education here\n\n\\section\x7bSkills\x7d\n% Add your skills here\n\n\\end\x7bdocument\x7d"

/-- `APIService.generateDefaultLaTeX`: escape the text, then splice it into
the fixed moderncv skeleton, the summary section receiving the
`split('\\n')`-based excerpt and the Experience section the whole escaped
text. -/
def generateDefaultLaTeX (cvText : String) : String :=
  let escapedText := escapeLatex cvText
  latexHead ++ latexSummary escapedText ++ latexMid ++ escapedText ++ latexTail

/-- The `CVAdaptationResult` record, fields holding JavaScript values as for
`ATSFormatCheck`. -/
structure CVAdaptationResult where
  adaptedCV : Json
  latexCode : Json
  changes : Json
  highlightedSkills : Json

/-- The fixed record `parseAdaptationResponse` returns when parsing fails. -/
def adaptParseFallback : CVAdaptationResult :=
  { adaptedCV := Json.str ("")
    latexCode := Json.str (generateDefaultLaTeX (""))
    changes := Json.arr [Json.str ("Failed to parse API response")]
    highlightedSkills := Json.arr [] }

/-- `APIService.parseAdaptationResponse`: extract the brace-delimited
candidate, `JSON.parse` it, default each field with `||`; the `latexCode`
field falls back to `generateDefaultLaTeX(parsed.adaptedCV || '')`, whose
`.replace` calls throw a `TypeError` when `parsed.adaptedCV` is a truthy
non-string — caught, like every failure, by the `try`/`catch` that yields the
fixed fallback record. -/
def parseAdaptationResponse (response : String) : CVAdaptationResult :=
  match extractJsonCandidate response with
  | some candidate =>
    match jsonParse candidate with
    | some parsed =>
      let adaptedCVv := jsOrDefault (jsGet parsed ("adaptedCV")) (Json.str (""))
      match truthyValue (jsGet parsed ("latexCode")) with
      | some v =>
        { adaptedCV := adaptedCVv
          latexCode := v
          changes := jsOrDefault (jsGet parsed ("changes")) (Json.arr [])
          highlightedSkills := jsOrDefault (jsGet parsed ("highlightedSkills")) (Json.arr []) }
      | none =>
        match adaptedCVv with
        | Json.str a =>
          { adaptedCV := adaptedCVv
            latexCode := Json.str (generateDefaultLaTeX a)
            changes := jsOrDefault (jsGet parsed ("changes")) (Json.arr [])
            highlightedSkills := jsOrDefault (jsGet parsed ("highlightedSkills")) (Json.arr []) }
        | _ => adaptParseFallback
    | none => adaptParseFallback
  | none => adaptParseFallback

/-- Modelled from the spec (Document Renderer algorithm): a single
left-to-right pass over the input in which each syntactically significant
character is mapped to its literal-producing escape sequence and the
substituted text is never rescanned by later rules.  Used only to exhibit how
the source's chained replacements differ from this description. -/
def escapeLatexSinglePass (cvText : String) : String :=
  String.mk (cvText.data.flatMap (fun c =>
    if c = '\\' then ("\\textbackslash\x7b\x7d").data
    else if c = '\x7b' then ("\\\x7b").data
    else if c = '\x7d' then ("\\\x7d").data
    else if c = '#' then ("\\#").data
    else if c = '$' then ("\\$").data
    else if c = '%' then ("\\%").data
    else if c = '&' then ("\\&").data
    else if c = '^' then ("\\textasciicircum\x7b\x7d").data
    else if c = '_' then ("\\_").data
    else if c = '~' then ("\\textasciitilde\x7b\x7d").data
    else [c]))

/-- The `APIProvider` union type (`'openai' | 'claude'`). -/
inductive APIProvider where
  | openai : APIProvider
  | claude : APIProvider

/-- The `APIProviderConfig` record. -/
structure APIProviderConfig where
  provider : APIProvider
  apiKey : String
  model : Option String

/-- The prompt template of `checkATSFormat`. -/
def atsPrompt (cvText : String) : String :=
  "Analyze the following CV/resume text and determine if it\x27s in ATS (Applicant Tracking System) format. \n    ATS-friendly resumes should:\n    1. Use standard section headings (Experience, Education, Skills, etc.)\n    2. Avoid tables, columns, graphics, or complex formatting\n    3. Use simple, keyword-rich text\n    4. Have clear, chronological work history\n    5. Use standard fonts and formatting\n    \n    CV Text:\n    " ++ cvText ++ "\n    \n    Respond in JSON format with:\n    \x7b\n      \"isATSFormat\": boolean,\n      \"score\": number (0-100),\n      \"issues\": [list of issues found],\n      \"suggestions\": [list of suggestions to improve ATS compatibility]\n    \x7d"

/-- The prompt template of `adaptCVToJob`. -/
def adaptPrompt (cvText jobDescription : String) : String :=
  "Compare the following CV with the job description and create an adapted version that highlights relevant skills and experiences.\n\n    Original CV:\n    " ++ cvText ++ "\n\n    Job Description:\n    " ++ jobDescription ++ "\n\n    Create an adapted CV that:\n    1. Highlights skills and experiences most relevant to the job\n    2. Reorders sections to emphasize relevant qualifications\n    3. Adds relevant keywords from the job description naturally\n    4. Maintains ATS-friendly format\n    5. Generates LaTeX code for the adapted CV\n\n    Respond in JSON format with:\n    \x7b\n      \"adaptedCV\": \"the adapted CV text\",\n      \"latexCode\": \"complete LaTeX document code for the CV\",\n      \"changes\": [\"list of key changes made\"],\n      \"highlightedSkills\": [\"list of skills that were highlighted\"]\n    \x7d"

/-- A transport oracle standing for the axios calls of `callOpenAI` and
`callClaude`: given the configuration and the prompt it yields either the
provider reply text or the message of the thrown provider error.  The network
itself is outside the embedding; the oracle is universally quantified in
every theorem that uses it. -/
def Transport : Type := APIProviderConfig → String → Except String String

/-- What one public `APIService` call produced. -/
inductive CallOutcome where
  | configError : CallOutcome
  | providerError : String → CallOutcome
  | atsResult : ATSFormatCheck → CallOutcome
  | adaptResult : CVAdaptationResult → CallOutcome

/-- `APIService.callAPI` followed by the provider-specific call, as one oracle
invocation.  The result pairs the outcome with the number of transport
invocations performed. -/
def callAPI (config : APIProviderConfig) (transport : Transport) (prompt : String) : Except String String × Nat :=
  (transport config prompt, 1)

/-- `APIService.checkATSFormat` on an explicit configuration state: fail with
the configuration error (`'API configuration not set'`) before any transport
call when no configuration is set, otherwise one transport exchange and
response parsing. -/
def checkATSFormat (config : Option APIProviderConfig) (transport : Transport) (cvText : String) : CallOutcome × Nat :=
  match config with
  | none => (CallOutcome.configError, 0)
  | some cfg =>
    match callAPI cfg transport (atsPrompt cvText) with
    | (Except.error e, n) => (CallOutcome.providerError e, n)
    | (Except.ok raw, n) => (CallOutcome.atsResult (parseATSResponse raw), n)

/-- `APIService.adaptCVToJob` on an explicit configuration state. -/
def adaptCVToJob (config : Option APIProviderConfig) (transport : Transport) (cvText jobDescription : String) : CallOutcome × Nat :=
  match config with
  | none => (CallOutcome.configError, 0)
  | some cfg =>
    match callAPI cfg transport (adaptPrompt cvText jobDescription) with
    | (Except.error e, n) => (CallOutcome.providerError e, n)
    | (Except.ok raw, n) => (CallOutcome.adaptResult (parseAdaptationResponse raw), n)

/-- One public call to the `apiService` singleton object. -/
inductive ServiceOp where
  | setConfig : APIProviderConfig → ServiceOp
  | checkATS : String → ServiceOp
  | adaptCV : String → String → ServiceOp

/-- `APIService.setConfig`: overwrite the private `config` field with the
given (non-null) configuration. -/
def setConfig (_st : Option APIProviderConfig) (cfg : APIProviderConfig) : Option APIProviderConfig :=
  some cfg

/-- One operation against the service state: the new state paired with the
outcome of the call, if the operation is a call. -/
def runOp (transport : Transport) (st : Option APIProviderConfig) : ServiceOp → Option APIProviderConfig × Option CallOutcome
  | ServiceOp.setConfig cfg => (setConfig st cfg, none)
  | ServiceOp.checkATS cvText => (st, some (checkATSFormat st transport cvText).1)
  | ServiceOp.adaptCV cvText jobDescription => (st, some (adaptCVToJob st transport cvText jobDescription).1)

/-- A sequence of operations, collecting every call's outcome in order. -/
def runOps (transport : Transport) (st : Option APIProviderConfig) : List ServiceOp → Option APIProviderConfig × List (Option CallOutcome)
  | [] => (st, [])
  | op :: ops =>
    let p := runOp transport st op
    let q := runOps transport p.1 ops
    (q.1, p.2 :: q.2)

/-- `parseATSResponse` as the instance method it is in the source: `self` is
the value of the private `config` field, the only instance state of
`APIService`; the method body never reads it. -/
def APIService.parseATSResponseM (_self : Option APIProviderConfig) (response : String) : ATSFormatCheck :=
  parseATSResponse response

/-- `parseAdaptationResponse` as an instance method; its body uses `this`
only to reach `generateDefaultLaTeX`, which never reads the config either. -/
def APIService.parseAdaptationResponseM (_self : Option APIProviderConfig) (response : String) : CVAdaptationResult :=
  parseAdaptationResponse response

/-- `generateDefaultLaTeX` as an instance method. -/
def APIService.generateDefaultLaTeXM (_self : Option APIProviderConfig) (cvText : String) : String :=
  generateDefaultLaTeX cvText

/-- Truthiness of a possibly-undefined value (`undefined` is falsy). -/
def jsTruthyOpt (v : Option Json) : Bool :=
  match v with
  | none => false
  | some w => jsTruthy w

/-- Whether a character list contains the two-character sequence
backslash-`n`, the separator `'\\n'` denotes inside the template literal. -/
def hasBsN : List Char → Bool
  | a :: b :: rest => if a = '\\' ∧ b = 'n' then true else hasBsN (b :: rest)
  | _ => false

/-- A provider reply whose payload carries an out-of-range score. -/
def c1reply : String := "\x7b\"score\": 150\x7d"

/-- The spec scenario reply, with the compliance key under its source-level
name `isATSFormat` (the spec calls the same field `isCompliant`). -/
def c2reply : String := "Sure! \x7b\"isATSFormat\": true, \"score\": 87, \"issues\": [], \"suggestions\": [\"Use bullet points\"]\x7d"

/-- The brace-delimited candidate inside `c2reply`. -/
def c2candidate : String := "\x7b\"isATSFormat\": true, \"score\": 87, \"issues\": [], \"suggestions\": [\"Use bullet points\"]\x7d"

/-- A reply with no brace-delimited substring at all. -/
def c3reply : String := "not json at all"

/-- A single backslash. -/
def c4input : String := "\\"

/-- Four newline-separated lines of adapted text. -/
def c5text : String := "Line1\nLine2\nLine3\nLine4"

/-- A payload whose score field is present but of the wrong shape. -/
def c7reply : String := "\x7b\"score\": \"high\"\x7d"

/-- A payload that supplies `latexCode`, but as the empty string. -/
def c8reply : String := "\x7b\"latexCode\": \"\"\x7d"

/-- A payload that supplies a non-empty `latexCode`. -/
def c8truthyReply : String := "\x7b\"adaptedCV\": \"text\", \"latexCode\": \"KEEP\"\x7d"

lemma jsNullish_some (v d : Json) (h : v ≠ Json.null) : jsNullish (some v) d = v := by
  cases v
  · exact absurd rfl h
  all_goals rfl

lemma jsNullish_undef (d : Json) : jsNullish none d = d := rfl

lemma jsNullish_null (d : Json) : jsNullish (some Json.null) d = d := rfl

lemma jsOrDefault_of_truthy (o : Option Json) (d v : Json) (h : truthyValue o = some v) :
    jsOrDefault o d = v := by
  simp [jsOrDefault, h]

lemma jsOrDefault_of_falsy (o : Option Json) (d : Json) (h : truthyValue o = none) :
    jsOrDefault o d = d := by
  simp [jsOrDefault, h]

lemma truthyValue_of_truthy (v : Json) (h : jsTruthy v = true) : truthyValue (some v) = some v := by
  simp [truthyValue, h]

lemma truthyValue_of_falsyOpt (o : Option Json) (h : jsTruthyOpt o = false) : truthyValue o = none := by
  cases o with
  | none => rfl
  | some w => simp [jsTruthyOpt] at h; simp [truthyValue, h]

lemma firstBrace_of_not_mem (cs : List Char) (h : ∀ k : Nat, cs[k]? ≠ some '\x7b') :
    firstBrace cs = none := by
  induction cs with
  | nil => rfl
  | cons c cs ih =>
    have h0 : ¬ c = '\x7b' := by
      intro hc
      exact h 0 (by simp [hc])
    have ht := ih (fun (k : Nat) => by simpa using h (k + 1))
    simp [firstBrace, h0, ht]

lemma firstBrace_of_first (cs : List Char) (i : Nat) (hi : cs[i]? = some '\x7b')
    (hmin : ∀ k : Nat, k < i → cs[k]? ≠ some '\x7b') : firstBrace cs = some i := by
  induction cs generalizing i with
  | nil => simp at hi
  | cons c cs ih =>
    by_cases hc : c = '\x7b'
    · have hi0 : i = 0 := by
        by_contra hne
        exact hmin 0 (Nat.pos_of_ne_zero hne) (by simp [hc])
      subst hi0
      simp [firstBrace, hc]
    · cases i with
      | zero =>
        simp at hi
        exact absurd hi hc
      | succ ip =>
        have hi' : cs[ip]? = some '\x7b' := by simpa using hi
        have hmin' : ∀ k : Nat, k < ip → cs[k]? ≠ some '\x7b' := fun k hk => by
          simpa using hmin (k + 1) (Nat.succ_lt_succ hk)
        simp [firstBrace, hc, ih ip hi' hmin']

lemma firstBrace_mem (cs : List Char) (i : Nat) (h : firstBrace cs = some i) :
    cs[i]? = some '\x7b' := by
  induction cs generalizing i with
  | nil => simp [firstBrace] at h
  | cons c cs ih =>
    by_cases hc : c = '\x7b'
    · simp [firstBrace, hc] at h
      subst h
      simp [hc]
    · simp [firstBrace, hc] at h
      obtain ⟨a, ha, rfl⟩ := h
      simpa using ih a ha

lemma lastClose_of_not_mem (cs : List Char) (h : ∀ k : Nat, cs[k]? ≠ some '\x7d') :
    lastClose cs = none := by
  induction cs with
  | nil => rfl
  | cons c cs ih =>
    have h0 : ¬ c = '\x7d' := by
      intro hc
      exact h 0 (by simp [hc])
    have ht := ih (fun (k : Nat) => by simpa using h (k + 1))
    simp [lastClose, h0, ht]

lemma lastClose_of_last (cs : List Char) (j : Nat) (hj : cs[j]? = some '\x7d')
    (hmax : ∀ k : Nat, j < k → cs[k]? ≠ some '\x7d') : lastClose cs = some j := by
  induction cs generalizing j with
  | nil => simp at hj
  | cons c cs ih =>
    cases j with
    | zero =>
      have hc : c = '\x7d' := by simpa using hj
      have hnone : lastClose cs = none :=
        lastClose_of_not_mem cs (fun k => by simpa using hmax (k + 1) (Nat.succ_pos k))
      simp [lastClose, hnone, hc]
    | succ jp =>
      have hj' : cs[jp]? = some '\x7d' := by simpa using hj
      have hmax' : ∀ k : Nat, jp < k → cs[k]? ≠ some '\x7d' := fun k hk => by
        simpa using hmax (k + 1) (Nat.succ_lt_succ hk)
      simp [lastClose, ih jp hj' hmax']

lemma lastClose_mem (cs : List Char) (j : Nat) (h : lastClose cs = some j) :
    cs[j]? = some '\x7d' := by
  induction cs generalizing j with
  | nil => simp [lastClose] at h
  | cons c cs ih =>
    cases hl : lastClose cs with
    | some k =>
      simp [lastClose, hl] at h
      subst h
      simpa using ih k hl
    | none =>
      by_cases hc : c = '\x7d'
      · simp [lastClose, hl, hc] at h
        subst h
        simp [hc]
      · simp [lastClose, hl, hc] at h

lemma extractJsonCandidate_of_braces (s : String) (i j : Nat)
    (hi : s.data[i]? = some '\x7b') (hmin : ∀ k : Nat, k < i → s.data[k]? ≠ some '\x7b')
    (hj : s.data[j]? = some '\x7d') (hmax : ∀ k : Nat, j < k → s.data[k]? ≠ some '\x7d')
    (hij : i < j) :
    extractJsonCandidate s = some (String.mk ((s.data.drop i).take (j + 1 - i))) := by
  unfold extractJsonCandidate
  rw [firstBrace_of_first s.data i hi hmin, lastClose_of_last s.data j hj hmax]
  simp [hij]

lemma extractJsonCandidate_of_no_pair (s : String)
    (h : ∀ i j : Nat, i < j → ¬(s.data[i]? = some '\x7b' ∧ s.data[j]? = some '\x7d')) :
    extractJsonCandidate s = none := by
  unfold extractJsonCandidate
  cases hf : firstBrace s.data with
  | none => rfl
  | some i =>
    cases hl : lastClose s.data with
    | none => rfl
    | some j =>
      have hij : ¬ i < j := fun hlt =>
        h i j hlt ⟨firstBrace_mem s.data i hf, lastClose_mem s.data j hl⟩
      simp [hij]

lemma parseATSResponse_of_parsed (s c : String) (j : Json)
    (hex : extractJsonCandidate s = some c) (hp : jsonParse c = some j) :
    parseATSResponse s =
      { isATSFormat := jsNullish (jsGet j ("isATSFormat")) (Json.bool false)
        score := jsNullish (jsGet j ("score")) (Json.num 0)
        issues := jsNullish (jsGet j ("issues")) (Json.arr [])
        suggestions := jsNullish (jsGet j ("suggestions")) (Json.arr []) } := by
  simp only [parseATSResponse, hex, hp]

lemma parseATSResponse_of_no_candidate (s : String)
    (hex : extractJsonCandidate s = none) : parseATSResponse s = atsParseFallback := by
  simp only [parseATSResponse, hex]

lemma parseATSResponse_of_bad_candidate (s c : String)
    (hex : extractJsonCandidate s = some c) (hp : jsonParse c = none) :
    parseATSResponse s = atsParseFallback := by
  simp only [parseATSResponse, hex, hp]

lemma parseAdaptationResponse_of_no_candidate (s : String)
    (hex : extractJsonCandidate s = none) : parseAdaptationResponse s = adaptParseFallback := by
  simp only [parseAdaptationResponse, hex]

lemma parseAdaptationResponse_of_bad_candidate (s c : String)
    (hex : extractJsonCandidate s = some c) (hp : jsonParse c = none) :
    parseAdaptationResponse s = adaptParseFallback := by
  simp only [parseAdaptationResponse, hex, hp]

lemma parseAdaptationResponse_of_latex_truthy (s c : String) (j v : Json)
    (hex : extractJsonCandidate s = some c) (hp : jsonParse c = some j)
    (hv : truthyValue (jsGet j ("latexCode")) = some v) :
    parseAdaptationResponse s =
      { adaptedCV := jsOrDefault (jsGet j ("adaptedCV")) (Json.str (""))
        latexCode := v
        changes := jsOrDefault (jsGet j ("changes")) (Json.arr [])
        highlightedSkills := jsOrDefault (jsGet j ("highlightedSkills")) (Json.arr []) } := by
  simp only [parseAdaptationResponse, hex, hp, hv]

lemma parseAdaptationResponse_of_renderer (s c : String) (j : Json) (a : String)
    (hex : extractJsonCandidate s = some c) (hp : jsonParse c = some j)
    (hv : truthyValue (jsGet j ("latexCode")) = none)
    (ha : jsOrDefault (jsGet j ("adaptedCV")) (Json.str ("")) = Json.str a) :
    parseAdaptationResponse s =
      { adaptedCV := Json.str a
        latexCode := Json.str (generateDefaultLaTeX a)
        changes := jsOrDefault (jsGet j ("changes")) (Json.arr [])
        highlightedSkills := jsOrDefault (jsGet j ("highlightedSkills")) (Json.arr []) } := by
  simp only [parseAdaptationResponse, hex, hp, hv, ha]

lemma checkATSFormat_some_not_configError (cfg : APIProviderConfig) (transport : Transport)
    (cvText : String) : (checkATSFormat (some cfg) transport cvText).1 ≠ CallOutcome.configError := by
  unfold checkATSFormat callAPI
  cases h : transport cfg (atsPrompt cvText) <;> simp [h]

lemma adaptCVToJob_some_not_configError (cfg : APIProviderConfig) (transport : Transport)
    (cvText jobDescription : String) :
    (adaptCVToJob (some cfg) transport cvText jobDescription).1 ≠ CallOutcome.configError := by
  unfold adaptCVToJob callAPI
  cases h : transport cfg (adaptPrompt cvText jobDescription) <;> simp [h]

lemma runOp_isSome (transport : Transport) (st : Option APIProviderConfig) (op : ServiceOp)
    (h : st.isSome = true) : ((runOp transport st op).1).isSome = true := by
  cases op <;> simp [runOp, setConfig, h]

lemma runOps_no_configError (transport : Transport) (ops : List ServiceOp) :
    ∀ st : Option APIProviderConfig, st.isSome = true →
    ∀ o ∈ (runOps transport st ops).2, o ≠ some CallOutcome.configError := by
  induction ops with
  | nil =>
    intro st _ o ho
    simp [runOps] at ho
  | cons op ops ih =>
    intro st hst o ho
    simp only [runOps, List.mem_cons] at ho
    rcases ho with rfl | ho
    · obtain ⟨cfg, rfl⟩ := Option.isSome_iff_exists.mp hst
      cases op with
      | setConfig c => simp [runOp]
      | checkATS s =>
        simp only [runOp, ne_eq, Option.some.injEq]
        exact fun h => checkATSFormat_some_not_configError cfg transport s h
      | adaptCV s t =>
        simp only [runOp, ne_eq, Option.some.injEq]
        exact fun h => adaptCVToJob_some_not_configError cfg transport s t h
    · exact ih _ (runOp_isSome transport st op hst) o ho

/-- C9: once `setConfig` has stored a configuration, the service's `config`
field is never null again, so no later `checkATSFormat` or `adaptCVToJob`
call in the trace can fail the configuration check: none of the recorded
outcomes is the `'API configuration not set'` error. -/
theorem claim_C9_config_set_is_permanent :
    ∀ (transport : Transport) (st0 : Option APIProviderConfig) (cfg : APIProviderConfig)
      (ops : List ServiceOp),
      ∀ o ∈ (runOps transport st0 (ServiceOp.setConfig cfg :: ops)).2,
        o ≠ some CallOutcome.configError := by
  intro transport st0 cfg ops o ho
  simp only [runOps, runOp, List.mem_cons] at ho
  rcases ho with rfl | ho
  · simp
  · exact runOps_no_configError transport ops (setConfig st0 cfg) rfl o ho

/-- Witness for C9 at a concrete trace: set a configuration, then run one
ATS check against a stubbed transport; the recorded outcome is the parsed
fallback result, not the configuration error. -/
theorem claim_C9_witness :
    some (CallOutcome.atsResult atsParseFallback) ≠ some CallOutcome.configError :=
  claim_C9_config_set_is_permanent (fun _ _ => Except.ok ("")) none
    ⟨APIProvider.openai, "key", none⟩ [ServiceOp.checkATS ("")]
    (some (CallOutcome.atsResult atsParseFallback))
    (by
      rw [show (runOps (fun _ _ => Except.ok ("")) none
            (ServiceOp.setConfig ⟨APIProvider.openai, "key", none⟩ :: [ServiceOp.checkATS ("")])).2
          = [none, some (CallOutcome.atsResult atsParseFallback)] from rfl]
      exact List.mem_cons_of_mem _ (List.mem_cons_self _ _))

/-- C6: with no configuration set, both public operations return the
`'API configuration not set'` failure immediately and the transport is
invoked zero times. -/
theorem claim_C6_fail_fast_without_config :
    ∀ (transport : Transport) (cvText jobDescription : String),
      checkATSFormat none transport cvText = (CallOutcome.configError, 0) ∧
      adaptCVToJob none transport cvText jobDescription = (CallOutcome.configError, 0) :=
  fun _ _ _ => ⟨rfl, rfl⟩

/-- C10: the two parse methods and the document generator are pure functions
of their string argument: as instance methods they read none of the
instance's state, so their results are independent of the configuration
(and hence of any earlier `setConfig` or request). -/
theorem claim_C10_parsers_pure :
    ∀ (self1 self2 : Option APIProviderConfig) (response cvText : String),
      APIService.parseATSResponseM self1 response = APIService.parseATSResponseM self2 response ∧
      APIService.parseAdaptationResponseM self1 response = APIService.parseAdaptationResponseM self2 response ∧
      APIService.generateDefaultLaTeXM self1 cvText = APIService.generateDefaultLaTeXM self2 cvText :=
  fun _ _ _ _ => ⟨rfl, rfl, rfl⟩

/-- C3: both parse functions are total Lean functions of the reply string,
and on a reply with no brace-delimited candidate, or with a candidate that
fails to decode, each returns exactly its fixed fallback record. -/
theorem claim_C3_fallback_on_parse_failure :
    ∀ s : String,
      (extractJsonCandidate s = none ∨
        ∃ c, extractJsonCandidate s = some c ∧ jsonParse c = none) →
      parseATSResponse s = atsParseFallback ∧
      parseAdaptationResponse s = adaptParseFallback := by
  intro s h
  rcases h with h | ⟨c, hex, hp⟩
  · exact ⟨parseATSResponse_of_no_candidate s h, parseAdaptationResponse_of_no_candidate s h⟩
  · exact ⟨parseATSResponse_of_bad_candidate s c hex hp,
      parseAdaptationResponse_of_bad_candidate s c hex hp⟩

/-- Witness for C3 at the spec's own scenario reply `"not json at all"`. -/
theorem claim_C3_witness :
    parseATSResponse c3reply = atsParseFallback ∧
    parseAdaptationResponse c3reply = adaptParseFallback :=
  claim_C3_fallback_on_parse_failure c3reply (Or.inl rfl)

lemma jsNullish_cases (o : Option Json) (d : Json) :
    (∀ v, o = some v → v ≠ Json.null → jsNullish o d = v) ∧
    ((o = none ∨ o = some Json.null) → jsNullish o d = d) := by
  constructor
  · intro v hv hn
    subst hv
    exact jsNullish_some v d hn
  · intro h
    rcases h with rfl | rfl
    · rfl
    · rfl

lemma jsOrDefault_cases (o : Option Json) (d : Json) :
    (∀ v, o = some v → jsTruthy v = true → jsOrDefault o d = v) ∧
    (jsTruthyOpt o = false → jsOrDefault o d = d) := by
  constructor
  · intro v hv ht
    subst hv
    exact jsOrDefault_of_truthy _ _ _ (truthyValue_of_truthy v ht)
  · intro h
    exact jsOrDefault_of_falsy _ _ (truthyValue_of_falsyOpt o h)

/-- C1 counterexample: the payload score `150` is returned as `150`, not
clamped to `100` — `parseATSResponse` performs no clamping. -/
theorem claim_C1_counterexample :
    (parseATSResponse c1reply).score = Json.num 150 ∧
    (parseATSResponse c1reply).score ≠ Json.num 100 := by
  refine ⟨rfl, ?_⟩
  rw [show (parseATSResponse c1reply).score = Json.num 150 from rfl]
  intro h
  injection h with h2
  omega

/-- C1 (amended): when the extracted payload decodes and carries a numeric
`score`, `parseATSResponse` copies that number into the result verbatim —
no clamping to `[0,100]` takes place (absent or null scores default to 0,
per C7). -/
theorem claim_C1_amended_score_unclamped :
    ∀ (s c : String) (j : Json) (n : Int),
      extractJsonCandidate s = some c → jsonParse c = some j →
      jsGet j ("score") = some (Json.num n) →
      (parseATSResponse s).score = Json.num n := by
  intro s c j n hex hp hsc
  rw [parseATSResponse_of_parsed s c j hex hp]
  show jsNullish (jsGet j ("score")) (Json.num 0) = Json.num n
  rw [hsc]
  exact jsNullish_some _ _ (fun h => Json.noConfusion h)

/-- Witness for C1 at the concrete out-of-range payload. -/
theorem claim_C1_witness : (parseATSResponse c1reply).score = Json.num 150 :=
  claim_C1_amended_score_unclamped c1reply c1reply
    (Json.obj [(("score"), Json.num 150)]) 150 rfl rfl rfl

/-- C2: the candidate payload is exactly the substring from the first `{` to
the last `}` (inclusive) when the first `{` precedes the last `}`, parsing is
treated as failed when no such pair exists, and the spec's scenario reply
(compliance key spelt `isATSFormat`, as the code and its prompts name the
field the spec calls `isCompliant`) parses to the corresponding assessment. -/
theorem claim_C2_candidate_and_scenario :
    (∀ (s : String) (i j : Nat),
        s.data[i]? = some '\x7b' → (∀ k : Nat, k < i → s.data[k]? ≠ some '\x7b') →
        s.data[j]? = some '\x7d' → (∀ k : Nat, j < k → s.data[k]? ≠ some '\x7d') →
        i < j →
        extractJsonCandidate s = some (String.mk ((s.data.drop i).take (j + 1 - i)))) ∧
    (∀ s : String,
        (∀ i j : Nat, i < j → ¬(s.data[i]? = some '\x7b' ∧ s.data[j]? = some '\x7d')) →
        extractJsonCandidate s = none) ∧
    parseATSResponse c2reply =
      { isATSFormat := Json.bool true
        score := Json.num 87
        issues := Json.arr []
        suggestions := Json.arr [Json.str ("Use bullet points")] } := by
  refine ⟨extractJsonCandidate_of_braces, extractJsonCandidate_of_no_pair, ?_⟩
  rfl

/-- Witness for C2 at the scenario reply: its first `{` is at index 6, its
last `}` at index 91, and the extracted candidate is that substring. -/
theorem claim_C2_witness :
    extractJsonCandidate c2reply = some (String.mk ((c2reply.data.drop 6).take (91 + 1 - 6))) := by
  refine claim_C2_candidate_and_scenario.1 c2reply 6 91 rfl (by decide) rfl ?_ (by decide)
  intro k hk
  have hlen : c2reply.data.length ≤ k := by
    have h92 : c2reply.data.length = 92 := by decide
    omega
  rw [List.getElem?_eq_none hlen]
  intro h
  exact Option.noConfusion h

/-- C7 counterexample: a `score` that is present but of the wrong shape (the
string `"high"`) is not replaced by the numeric default 0 — `??` only
replaces absent or null fields, not wrongly-shaped ones. -/
theorem claim_C7_counterexample :
    (parseATSResponse c7reply).score = Json.str ("high") ∧
    (parseATSResponse c7reply).score ≠ Json.num 0 := by
  refine ⟨rfl, ?_⟩
  rw [show (parseATSResponse c7reply).score = Json.str ("high") from rfl]
  intro h
  exact Json.noConfusion h

/-- C7 (amended): for a decodable payload, each assessment field is taken
from the payload whenever it is present and non-null and replaced by its
default only when absent or null (`??`); each adaptation field is taken from
the payload whenever it is present and truthy and replaced by its default
only when absent or falsy (`||`), stated away from the renderer's
type-error corner by assuming `adaptedCV || ''` is a string. -/
theorem claim_C7_amended_defaulting :
    ∀ (s c : String) (j : Json),
      extractJsonCandidate s = some c → jsonParse c = some j →
      ((∀ v, jsGet j ("isATSFormat") = some v → v ≠ Json.null →
          (parseATSResponse s).isATSFormat = v) ∧
       ((jsGet j ("isATSFormat") = none ∨ jsGet j ("isATSFormat") = some Json.null) →
          (parseATSResponse s).isATSFormat = Json.bool false) ∧
       (∀ v, jsGet j ("score") = some v → v ≠ Json.null →
          (parseATSResponse s).score = v) ∧
       ((jsGet j ("score") = none ∨ jsGet j ("score") = some Json.null) →
          (parseATSResponse s).score = Json.num 0) ∧
       (∀ v, jsGet j ("issues") = some v → v ≠ Json.null →
          (parseATSResponse s).issues = v) ∧
       ((jsGet j ("issues") = none ∨ jsGet j ("issues") = some Json.null) →
          (parseATSResponse s).issues = Json.arr []) ∧
       (∀ v, jsGet j ("suggestions") = some v → v ≠ Json.null →
          (parseATSResponse s).suggestions = v) ∧
       ((jsGet j ("suggestions") = none ∨ jsGet j ("suggestions") = some Json.null) →
          (parseATSResponse s).suggestions = Json.arr [])) ∧
      (∀ a : String, jsOrDefault (jsGet j ("adaptedCV")) (Json.str ("")) = Json.str a →
        (parseAdaptationResponse s).adaptedCV = Json.str a ∧
        (∀ v, jsGet j ("changes") = some v → jsTruthy v = true →
          (parseAdaptationResponse s).changes = v) ∧
        (jsTruthyOpt (jsGet j ("changes")) = false →
          (parseAdaptationResponse s).changes = Json.arr []) ∧
        (∀ v, jsGet j ("highlightedSkills") = some v → jsTruthy v = true →
          (parseAdaptationResponse s).highlightedSkills = v) ∧
        (jsTruthyOpt (jsGet j ("highlightedSkills")) = false →
          (parseAdaptationResponse s).highlightedSkills = Json.arr [])) := by
  intro s c j hex hp
  constructor
  · rw [parseATSResponse_of_parsed s c j hex hp]
    exact ⟨(jsNullish_cases _ _).1, (jsNullish_cases _ _).2, (jsNullish_cases _ _).1,
      (jsNullish_cases _ _).2, (jsNullish_cases _ _).1, (jsNullish_cases _ _).2,
      (jsNullish_cases _ _).1, (jsNullish_cases _ _).2⟩
  · intro a ha
    cases htv : truthyValue (jsGet j ("latexCode")) with
    | some v =>
      rw [parseAdaptationResponse_of_latex_truthy s c j v hex hp htv]
      exact ⟨ha, (jsOrDefault_cases _ _).1, (jsOrDefault_cases _ _).2,
        (jsOrDefault_cases _ _).1, (jsOrDefault_cases _ _).2⟩
    | none =>
      rw [parseAdaptationResponse_of_renderer s c j a hex hp htv ha]
      exact ⟨rfl, (jsOrDefault_cases _ _).1, (jsOrDefault_cases _ _).2,
        (jsOrDefault_cases _ _).1, (jsOrDefault_cases _ _).2⟩

/-- Witness for C7: in the wrong-shape payload, the string-valued score is
passed through, and the absent issues field defaults to the empty list. -/
theorem claim_C7_witness :
    (parseATSResponse c7reply).score = Json.str ("high") ∧
    (parseATSResponse c7reply).issues = Json.arr [] := by
  have h := claim_C7_amended_defaulting c7reply c7reply
    (Json.obj [(("score"), Json.str ("high"))]) rfl rfl
  exact ⟨h.1.2.2.1 (Json.str ("high")) rfl (fun hh => Json.noConfusion hh),
    h.1.2.2.2.2.2.1 (Or.inl rfl)⟩

/-- C8 counterexample: a payload that supplies `latexCode` as the (falsy)
empty string does not have it passed through — the default renderer is
invoked even though the field is present. -/
theorem claim_C8_counterexample :
    jsonParse c8reply = some (Json.obj [(("latexCode"), Json.str (""))]) ∧
    jsGet (Json.obj [(("latexCode"), Json.str (""))]) ("latexCode") = some (Json.str ("")) ∧
    (parseAdaptationResponse c8reply).latexCode = Json.str (generateDefaultLaTeX ("")) ∧
    (parseAdaptationResponse c8reply).latexCode ≠ Json.str ("") := by
  refine ⟨rfl, rfl, rfl, ?_⟩
  rw [show (parseAdaptationResponse c8reply).latexCode = Json.str (generateDefaultLaTeX ("")) from rfl]
  intro h
  injection h with h2
  exact absurd h2 (by decide)

/-- C8 (amended): the renderer is skipped and a provider-supplied
`latexCode` passed through unmodified exactly when that value is truthy;
when `latexCode` is absent or falsy (null, false, 0 or the empty string),
`latexCode` is the default renderer applied to `adaptedCV || ''`. -/
theorem claim_C8_amended_renderer_condition :
    ∀ (s c : String) (j : Json),
      extractJsonCandidate s = some c → jsonParse c = some j →
      (∀ v, jsGet j ("latexCode") = some v → jsTruthy v = true →
        (parseAdaptationResponse s).latexCode = v) ∧
      (jsTruthyOpt (jsGet j ("latexCode")) = false →
        ∀ a : String, jsOrDefault (jsGet j ("adaptedCV")) (Json.str ("")) = Json.str a →
          (parseAdaptationResponse s).latexCode = Json.str (generateDefaultLaTeX a)) := by
  intro s c j hex hp
  constructor
  · intro v hv ht
    have htv : truthyValue (jsGet j ("latexCode")) = some v := by
      rw [hv]
      exact truthyValue_of_truthy v ht
    rw [parseAdaptationResponse_of_latex_truthy s c j v hex hp htv]
  · intro hfal a ha
    rw [parseAdaptationResponse_of_renderer s c j a hex hp
      (truthyValue_of_falsyOpt _ hfal) ha]

/-- Witness for C8: a truthy supplied document is passed through unchanged;
a falsy (empty-string) one is replaced by the rendered default. -/
theorem claim_C8_witness :
    (parseAdaptationResponse c8truthyReply).latexCode = Json.str ("KEEP") ∧
    (parseAdaptationResponse c8reply).latexCode = Json.str (generateDefaultLaTeX ("")) := by
  constructor
  · exact (claim_C8_amended_renderer_condition c8truthyReply c8truthyReply
      (Json.obj [(("adaptedCV"), Json.str ("text")), (("latexCode"), Json.str ("KEEP"))])
      rfl rfl).1 (Json.str ("KEEP")) rfl rfl
  · exact (claim_C8_amended_renderer_condition c8reply c8reply
      (Json.obj [(("latexCode"), Json.str (""))]) rfl rfl).2 rfl ("") rfl

lemma splitOnBackslashN_of_no_sep : ∀ cs : List Char, hasBsN cs = false → splitOnBackslashN cs = [cs] := by
  intro cs
  induction cs with
  | nil => intro _; rfl
  | cons a tail ih =>
    intro h
    cases tail with
    | nil => rfl
    | cons b rest =>
      have hcond : ¬(a = '\\' ∧ b = 'n') := by
        intro hc
        simp [hasBsN, hc] at h
      have htail : hasBsN (b :: rest) = false := by
        simp [hasBsN, hcond] at h
        exact h
      simp [splitOnBackslashN, hcond, ih htail]

lemma hasBsN_append_of : ∀ A B : List Char, hasBsN A = false → A.getLast? ≠ some '\\' →
    hasBsN B = false → hasBsN (A ++ B) = false := by
  intro A
  induction A with
  | nil =>
    intro B _ _ hB
    simpa using hB
  | cons a A ih =>
    intro B hA hlast hB
    cases A with
    | nil =>
      have ha : ¬ a = '\\' := by simpa using hlast
      cases B with
      | nil => simp [hasBsN]
      | cons b Bp =>
        show hasBsN (a :: b :: Bp) = false
        simp [hasBsN, ha]
        exact hB
    | cons a2 Ap =>
      have hcond : ¬(a = '\\' ∧ a2 = 'n') := by
        intro hc
        simp [hasBsN, hc] at hA
      have hA' : hasBsN (a2 :: Ap) = false := by
        simp [hasBsN, hcond] at hA
        exact hA
      have hlast' : (a2 :: Ap).getLast? ≠ some '\\' := by
        simpa [List.getLast?_cons_cons] using hlast
      show hasBsN (a :: a2 :: (Ap ++ B)) = false
      simp only [hasBsN, if_neg hcond]
      simpa using ih B hA' hlast' hB

lemma escapeChain_append : ∀ xs ys : List Char, escapeChain (xs ++ ys) = escapeChain xs ++ escapeChain ys := by
  intro xs ys
  simp [escapeChain, replaceChar, List.flatMap_append]

lemma escapeChain_single_ok (c : Char) :
    hasBsN (escapeChain [c]) = false ∧ (escapeChain [c]).getLast? ≠ some '\\' := by
  by_cases h1 : c = '\\'
  · subst h1; decide
  by_cases h2 : c = '\x7b'
  · subst h2; decide
  by_cases h3 : c = '\x7d'
  · subst h3; decide
  by_cases h4 : c = '#'
  · subst h4; decide
  by_cases h5 : c = '$'
  · subst h5; decide
  by_cases h6 : c = '%'
  · subst h6; decide
  by_cases h7 : c = '&'
  · subst h7; decide
  by_cases h8 : c = '^'
  · subst h8; decide
  by_cases h9 : c = '_'
  · subst h9; decide
  by_cases h10 : c = '~'
  · subst h10; decide
  have he : escapeChain [c] = [c] := by
    simp [escapeChain, replaceChar, h1, h2, h3, h4, h5, h6, h7, h8, h9, h10]
  rw [he]
  refine ⟨rfl, ?_⟩
  simpa using h1

lemma escapeChain_ok : ∀ cs : List Char,
    hasBsN (escapeChain cs) = false ∧ (escapeChain cs).getLast? ≠ some '\\' := by
  intro cs
  induction cs with
  | nil => decide
  | cons c cs ih =>
    have hsplit : escapeChain (c :: cs) = escapeChain [c] ++ escapeChain cs := by
      rw [show (c :: cs) = [c] ++ cs from rfl, escapeChain_append]
    obtain ⟨hA, hlastA⟩ := escapeChain_single_ok c
    obtain ⟨hB, hlastB⟩ := ih
    constructor
    · rw [hsplit]
      exact hasBsN_append_of _ _ hA hlastA hB
    · rw [hsplit, List.getLast?_append]
      cases hBl : (escapeChain cs).getLast? with
      | none => simpa using hlastA
      | some x =>
        rw [hBl] at hlastB
        simpa using hlastB

lemma latexSummary_whole (s : String) : latexSummary (escapeLatex s) = escapeLatex s := by
  have hdata : (escapeLatex s).data = escapeChain s.data := by rw [escapeLatex]
  rw [latexSummary, hdata, splitOnBackslashN_of_no_sep _ (escapeChain_ok s.data).1]
  show String.mk (List.intercalate ("\\n\\par".data) [escapeChain s.data]) = escapeLatex s
  simp [List.intercalate]
  rfl

/-- C4 (code behaviour at the failing input): escaping a single backslash
first produces `\textbackslash{}`, whose braces the two subsequent brace
rules re-escape, so the chain emits `\textbackslash\{\}` — earlier
substitutions' output is rescanned by later rules, unlike the single
left-to-right pass the spec describes (modelled by
`escapeLatexSinglePass`). -/
theorem claim_C4_backslash_escape_rescanned :
    escapeLatex c4input = ("\\textbackslash\\\x7b\\\x7d") ∧
    escapeLatexSinglePass c4input = ("\\textbackslash\x7b\x7d") ∧
    escapeLatex c4input ≠ escapeLatexSinglePass c4input := by
  refine ⟨rfl, rfl, ?_⟩
  decide

/-- C5 (code behaviour at the failing input): the split separator written
`'\\n'` inside the template literal is the two-character sequence
backslash-`n`, which the escaped text never contains, so the summary section
always receives the whole escaped text — for the input with three newlines
(four lines), all four lines appear in the summary, not just the first
three. -/
theorem claim_C5_summary_not_truncated :
    (∀ cvText : String, latexSummary (escapeLatex cvText) = escapeLatex cvText) ∧
    generateDefaultLaTeX c5text = latexHead ++ c5text ++ latexMid ++ c5text ++ latexTail ∧
    (splitOnBackslashN (escapeLatex c5text).data).length = 1 ∧
    c5text.data.count '\n' = 3 :=
  ⟨latexSummary_whole, rfl, rfl, rfl⟩
